import Mathlib

/-!
Shallow embedding of `src/lib/spec-directory/options.ts` from sass-spec-ng.

The TypeScript class `SpecOptions` wraps an `OptionsData` object holding up to
four recognized keys (`:ignore_for`, `:todo`, `:warning_todo`, `:precision`)
plus any unrecognized keys that a decoded YAML document may carry.

Modelling decisions, each forced by the JavaScript semantics of the source:
- In JavaScript an object key can be *present with value `undefined`*:
  `merge` builds `':precision': other.data[':precision'] ?? this.data[':precision']`,
  which is a present key whose value is `undefined` when both operands lack a
  precision.  `Object.entries` (used by `isEmpty`) sees such a key, while the
  reads (`?? 10`, `??` in `merge`) treat it like an absent key.  We therefore
  model the precision field as `Option (Option Int)`: `none` = key absent,
  `some none` = key present with value `undefined`, `some (some v)` = value `v`.
- The three list fields are only ever assigned real arrays by every operation
  of the class (decoded YAML sequences, `merge`'s concatenations, `addImpl`'s
  append, `removeImpl`'s slices), so they are modelled as `Option (List String)`.
- Unrecognized keys are carried in `extra`, an association list assumed to use
  keys distinct from the four recognized ones; object spreads (`{...this.data}`)
  preserve them and `merge` (which builds a fresh four-key object) drops them.
- `String.prototype.includes` is modelled as substring containment on the
  character list of the string.
-/

/-- A decoded YAML value as far as this module can observe one: a sequence of
strings, a number, or a plain string (the shapes an unrecognized key can carry
that `isEmpty`'s `value.length === 0` check distinguishes). -/
inductive YVal where
  | vlist : List String → YVal
  | vnum : Int → YVal
  | vstr : String → YVal
deriving DecidableEq

/-- The `OptionsData` interface: the four recognized keys plus unrecognized
extra keys.  Field order: `ignore_for`, `todo`, `warning_todo`, `precision`,
`extra`. -/
structure OptionsData where
  ignore_for : Option (List String)
  todo : Option (List String)
  warning_todo : Option (List String)
  precision : Option (Option Int)
  extra : List (String × YVal)
deriving DecidableEq

/-- The `OptionKey` union type: a key for an option represented by an array of
supported implementations. -/
inductive OptionKey where
  | ignore_for
  | todo
  | warning_todo
deriving DecidableEq

/-- Reading `this.data[option]` for an `OptionKey`. -/
def OptionsData.get (d : OptionsData) : OptionKey → Option (List String)
  | OptionKey.ignore_for => d.ignore_for
  | OptionKey.todo => d.todo
  | OptionKey.warning_todo => d.warning_todo

/-- Writing (or with `none`, deleting) the entry of an `OptionKey`, as the
object spread `{...this.data, [optKey]: v}` and `delete newOptions[optKey]`
do: every other key of the object is preserved. -/
def OptionsData.set (d : OptionsData) : OptionKey → Option (List String) → OptionsData
  | OptionKey.ignore_for, v => ⟨v, d.todo, d.warning_todo, d.precision, d.extra⟩
  | OptionKey.todo, v => ⟨d.ignore_for, v, d.warning_todo, d.precision, d.extra⟩
  | OptionKey.warning_todo, v => ⟨d.ignore_for, d.todo, v, d.precision, d.extra⟩

/-- The JavaScript read `d[':precision']`: `undefined` (here `none`) both when
the key is absent and when it is present with value `undefined`. -/
def prRead (d : OptionsData) : Option Int :=
  match d.precision with
  | some (some v) => some v
  | some none => none
  | none => none

/-- The nullish-coalescing operator `a ?? b` on precision reads. -/
def jsOr (a b : Option Int) : Option Int :=
  match a with
  | some v => some v
  | none => b

/-- `needle` is a prefix of `hay` (character lists). -/
def listHasPre : List Char → List Char → Bool
  | [], _ => true
  | _ :: _, [] => false
  | a :: as, b :: bs => a == b && listHasPre as bs

/-- `needle` occurs somewhere inside `hay` (character lists). -/
def listHasSub : List Char → List Char → Bool
  | needle, [] => listHasPre needle []
  | needle, b :: bs => listHasPre needle (b :: bs) || listHasSub needle bs

/-- `item.includes(impl)` of JavaScript: substring containment. -/
def strIncludes (item impl : String) : Bool :=
  listHasSub impl.toList item.toList

/-- `Array.prototype.findIndex(item => item.includes(impl))`, with `none`
standing for the `-1` result. -/
def findMatchIdx (impl : String) : List String → Option Nat
  | [] => none
  | item :: rest =>
    if strIncludes item impl then some 0
    else (findMatchIdx impl rest).map (fun i => i + 1)

/-- The wrapper class `SpecOptions` around its private `data`. -/
structure SpecOptions where
  data : OptionsData
deriving DecidableEq

/-- `isEmpty`: `Object.entries(this.data).every(([key, value]) =>
key === ':precision' ? value === 10 : value.length === 0)`.  A present
`:precision` key passes only when its value is the number `10` (a present key
with value `undefined` fails `undefined === 10`); every other present key
passes when `value.length === 0` (`undefined === 0`, hence `false`, for a
number-valued unrecognized key). -/
def SpecOptions.isEmpty (o : SpecOptions) : Bool :=
  (match o.data.ignore_for with | none => true | some l => l.isEmpty) &&
  (match o.data.todo with | none => true | some l => l.isEmpty) &&
  (match o.data.warning_todo with | none => true | some l => l.isEmpty) &&
  (match o.data.precision with | none => true | some v => v == some (10 : Int)) &&
  (o.data.extra.all (fun kv =>
    match kv.2 with
    | YVal.vlist l => l.isEmpty
    | YVal.vnum _ => false
    | YVal.vstr s => s.length == 0))

/-- `merge`: each list key is set to `[...(this.data[k] ?? []), ...(other.data[k] ?? [])]`
and `:precision` to `other.data[':precision'] ?? this.data[':precision']`.
The fresh object literal carries exactly these four keys: the three list keys
are always present (possibly as empty arrays), the precision key is always
present (possibly with value `undefined`), and unrecognized keys of either
operand are dropped. -/
def SpecOptions.merge (o other : SpecOptions) : SpecOptions :=
  ⟨⟨some (o.data.ignore_for.getD [] ++ other.data.ignore_for.getD []),
    some (o.data.todo.getD [] ++ other.data.todo.getD []),
    some (o.data.warning_todo.getD [] ++ other.data.warning_todo.getD []),
    some (jsOr (prRead other.data) (prRead o.data)),
    []⟩⟩

/-- `hasForImpl`: `!!this.data[option]?.some(item => item.includes(impl))`. -/
def SpecOptions.hasForImpl (o : SpecOptions) (impl : String) (option : OptionKey) : Bool :=
  match o.data.get option with
  | none => false
  | some l => l.any (fun item => strIncludes item impl)

/-- The run mode of an implementation: the string literals `'todo' | 'ignore'`. -/
inductive RunMode where
  | todo
  | ignore
deriving DecidableEq

/-- `getMode`: `'ignore'` if the ignore list matches, else `'todo'` if the todo
list matches, else `undefined`. -/
def SpecOptions.getMode (o : SpecOptions) (impl : String) : Option RunMode :=
  if o.hasForImpl impl OptionKey.ignore_for then some RunMode.ignore
  else if o.hasForImpl impl OptionKey.todo then some RunMode.todo
  else none

/-- `isWarningTodo`: `this.hasForImpl(impl, ':warning_todo')`. -/
def SpecOptions.isWarningTodo (o : SpecOptions) (impl : String) : Bool :=
  o.hasForImpl impl OptionKey.warning_todo

/-- `precision()`: `this.data[':precision'] ?? 10`. -/
def SpecOptions.precision (o : SpecOptions) : Int :=
  (prRead o.data).getD 10

/-- `addImpl`: `{...this.data, [optKey]: [...(this.data[optKey] ?? []), impl]}`. -/
def SpecOptions.addImpl (o : SpecOptions) (impl : String) (optKey : OptionKey) : SpecOptions :=
  ⟨o.data.set optKey (some ((o.data.get optKey).getD [] ++ [impl]))⟩

/-- `removeImpl`: return `this` when the key is absent or no entry matches;
delete the key when the single entry matches; otherwise excise the first
matching entry with `slice(0, index)` ++ `slice(index + 1, length)`. -/
def SpecOptions.removeImpl (o : SpecOptions) (impl : String) (optKey : OptionKey) : SpecOptions :=
  match o.data.get optKey with
  | none => o
  | some oldOption =>
    match findMatchIdx impl oldOption with
    | none => o
    | some index =>
      if oldOption.length == 1 then ⟨o.data.set optKey none⟩
      else ⟨o.data.set optKey (some (oldOption.take index ++ oldOption.drop (index + 1)))⟩

/-- The record decoded from an empty document: `yaml.load` of nothing is
`undefined`, so `fromYaml` wraps `{}` — no keys at all. -/
def emptyRecord : SpecOptions := ⟨⟨none, none, none, none, []⟩⟩

/-- Modelled from the spec: the YAML text codec (`js-yaml`) is an external
collaborator that is not part of this repository's sources; per §6 of the spec
it decodes text to a structured key/value document and encodes such a document
back to text, and the key-unquoting shim of `toYaml` only changes the textual
spelling of the four symbolic keys, not the decoded structure.  We therefore
model the document at the structured level as an association list.  `encodeDoc`
is `yaml.dump(this.data)` seen structurally: each present key of the data
object in declaration order, where a precision key holding `undefined` is not a
representable YAML value and is omitted (the spec describes a merged record
with no effective precision as having an *absent* precision). -/
def optEntry (key : String) : Option YVal → List (String × YVal)
  | some v => [(key, v)]
  | none => []

/-- Modelled from the spec: the structural content of the text `toYaml` emits
(see `optEntry`). -/
def encodeDoc (d : OptionsData) : List (String × YVal) :=
  optEntry ":ignore_for" (d.ignore_for.map YVal.vlist) ++
  optEntry ":todo" (d.todo.map YVal.vlist) ++
  optEntry ":warning_todo" (d.warning_todo.map YVal.vlist) ++
  optEntry ":precision" ((prRead d).map YVal.vnum) ++
  d.extra

/-- The four recognized keys of the on-disk document. -/
def recognizedKeys : List String :=
  [":ignore_for", ":todo", ":warning_todo", ":precision"]

/-- Modelled from the spec: `fromYaml` wraps the decoded document (an object)
as `OptionsData` without validation, so the structural decode just reads each
recognized key and keeps the unrecognized ones. -/
def decodeDoc (doc : List (String × YVal)) : OptionsData :=
  ⟨(match doc.lookup ":ignore_for" with | some (YVal.vlist l) => some l | _ => none),
   (match doc.lookup ":todo" with | some (YVal.vlist l) => some l | _ => none),
   (match doc.lookup ":warning_todo" with | some (YVal.vlist l) => some l | _ => none),
   (match doc.lookup ":precision" with | some (YVal.vnum v) => some (some v) | _ => none),
   doc.filter (fun kv => !(recognizedKeys.contains kv.1))⟩

/-- `toYaml` at the structured level (see `encodeDoc`). -/
def SpecOptions.toTextDoc (o : SpecOptions) : List (String × YVal) :=
  encodeDoc o.data

/-- `fromYaml` at the structured level: `new SpecOptions((yaml.load(content) ?? {}))`,
where an absent document already decodes to the empty association list. -/
def SpecOptions.fromTextDoc (doc : List (String × YVal)) : SpecOptions :=
  ⟨decodeDoc doc⟩

/-- The notion of semantic emptiness claimed for merging: all three list fields
empty or absent, precision absent (or present `undefined`) or equal to 10. -/
def semanticallyEmpty (o : SpecOptions) : Bool :=
  (o.data.ignore_for.getD []).isEmpty &&
  (o.data.todo.getD []).isEmpty &&
  (o.data.warning_todo.getD []).isEmpty &&
  (prRead o.data == none || prRead o.data == some (10 : Int))

/-! Helper lemmas about substring containment. -/

theorem listHasPre_iff (needle hay : List Char) :
    listHasPre needle hay = true ↔ ∃ rest, hay = needle ++ rest := by
  induction needle generalizing hay with
  | nil => simp [listHasPre]
  | cons a as ih =>
    cases hay with
    | nil => simp [listHasPre]
    | cons b bs =>
      simp only [listHasPre, Bool.and_eq_true, beq_iff_eq, ih, List.cons_append,
        List.cons.injEq]
      constructor
      · rintro ⟨h1, rest, h2⟩
        exact ⟨rest, h1.symm, h2⟩
      · rintro ⟨rest, h1, h2⟩
        exact ⟨h1.symm, rest, h2⟩

theorem listHasSub_iff (needle hay : List Char) :
    listHasSub needle hay = true ↔ ∃ pre post, hay = pre ++ needle ++ post := by
  induction hay with
  | nil =>
    simp only [listHasSub, listHasPre_iff]
    constructor
    · rintro ⟨rest, h⟩
      exact ⟨[], rest, by simpa using h⟩
    · rintro ⟨pre, post, h⟩
      have hne : needle = [] := by
        have h2 := h.symm
        simp only [List.append_eq_nil] at h2
        exact h2.1.2
      exact ⟨[], by simp [hne]⟩
  | cons b bs ih =>
    simp only [listHasSub, Bool.or_eq_true, listHasPre_iff, ih]
    constructor
    · rintro (⟨rest, h⟩ | ⟨pre, post, h⟩)
      · exact ⟨[], rest, by simpa using h⟩
      · exact ⟨b :: pre, post, by simp [h]⟩
    · rintro ⟨pre, post, h⟩
      cases pre with
      | nil => exact Or.inl ⟨post, by simpa using h⟩
      | cons p ps =>
        simp only [List.cons_append, List.cons.injEq] at h
        exact Or.inr ⟨ps, post, h.2⟩

theorem strIncludes_iff (item impl : String) :
    strIncludes item impl = true ↔ ∃ pre post, item.toList = pre ++ impl.toList ++ post := by
  exact listHasSub_iff impl.toList item.toList

theorem strIncludes_empty_impl (item : String) : strIncludes item "" = true := by
  rw [strIncludes_iff]
  exact ⟨[], item.toList, by simp⟩

/-! Helper lemmas about `get` and `set`. -/

theorem get_set_same (d : OptionsData) (k : OptionKey) (v : Option (List String)) :
    (d.set k v).get k = v := by
  cases k <;> rfl

theorem get_set_ne (d : OptionsData) (k k2 : OptionKey) (v : Option (List String))
    (h : k2 ≠ k) : (d.set k v).get k2 = d.get k2 := by
  cases k <;> cases k2 <;> first | rfl | exact absurd rfl h

theorem set_precision (d : OptionsData) (k : OptionKey) (v : Option (List String)) :
    (d.set k v).precision = d.precision := by
  cases k <;> rfl

theorem set_extra (d : OptionsData) (k : OptionKey) (v : Option (List String)) :
    (d.set k v).extra = d.extra := by
  cases k <;> rfl

/-! Helper lemmas about the query operations. -/

theorem hasForImpl_eq_any (o : SpecOptions) (s : String) (k : OptionKey) :
    o.hasForImpl s k = ((o.data.get k).getD []).any (fun item => strIncludes item s) := by
  unfold SpecOptions.hasForImpl
  cases o.data.get k <;> simp

theorem get_merge (a b : SpecOptions) (k : OptionKey) :
    (a.merge b).data.get k = some ((a.data.get k).getD [] ++ (b.data.get k).getD []) := by
  cases k <;> rfl

theorem hasForImpl_merge (a b : SpecOptions) (s : String) (k : OptionKey) :
    (a.merge b).hasForImpl s k = (a.hasForImpl s k || b.hasForImpl s k) := by
  rw [hasForImpl_eq_any, hasForImpl_eq_any, hasForImpl_eq_any, get_merge]
  simp [List.any_append]

theorem prRead_some_val (d : OptionsData) (p : Option Int) (h : d.precision = some p) :
    prRead d = p := by
  unfold prRead
  rw [h]
  cases p <;> rfl

theorem prRead_merge (a b : SpecOptions) :
    prRead (a.merge b).data = jsOr (prRead b.data) (prRead a.data) :=
  prRead_some_val _ _ rfl

theorem getMode_congr (o1 o2 : SpecOptions) (s : String)
    (h1 : o1.hasForImpl s OptionKey.ignore_for = o2.hasForImpl s OptionKey.ignore_for)
    (h2 : o1.hasForImpl s OptionKey.todo = o2.hasForImpl s OptionKey.todo) :
    o1.getMode s = o2.getMode s := by
  unfold SpecOptions.getMode
  rw [h1, h2]

/-! Helper lemmas about `findMatchIdx`. -/

theorem findMatchIdx_none_of_all (s : String) (l : List String)
    (h : ∀ x ∈ l, strIncludes x s = false) : findMatchIdx s l = none := by
  induction l with
  | nil => rfl
  | cons a as ih =>
    have ha : strIncludes a s = false := h a (List.mem_cons_self a as)
    simp [findMatchIdx, ha, ih (fun x hx => h x (List.mem_cons_of_mem a hx))]

theorem findMatchIdx_first (s : String) (pre : List String) (x : String) (post : List String)
    (hpre : ∀ y ∈ pre, strIncludes y s = false) (hx : strIncludes x s = true) :
    findMatchIdx s (pre ++ x :: post) = some pre.length := by
  induction pre with
  | nil => simp [findMatchIdx, hx]
  | cons a as ih =>
    have ha : strIncludes a s = false := hpre a (List.mem_cons_self a as)
    simp [findMatchIdx, ha, ih (fun y hy => hpre y (List.mem_cons_of_mem a hy))]

/-! Helper lemmas about semantic emptiness and merging. -/

theorem semEmpty_get (e : SpecOptions) (he : semanticallyEmpty e = true) (k : OptionKey) :
    (e.data.get k).getD [] = [] := by
  unfold semanticallyEmpty at he
  simp only [Bool.and_eq_true, List.isEmpty_iff] at he
  cases k
  · exact he.1.1.1
  · exact he.1.1.2
  · exact he.1.2

theorem semEmpty_prRead (e : SpecOptions) (he : semanticallyEmpty e = true) :
    prRead e.data = none ∨ prRead e.data = some 10 := by
  unfold semanticallyEmpty at he
  simp only [Bool.and_eq_true, Bool.or_eq_true, beq_iff_eq] at he
  exact he.2

theorem semEmpty_hasForImpl (e : SpecOptions) (he : semanticallyEmpty e = true)
    (s : String) (k : OptionKey) : e.hasForImpl s k = false := by
  rw [hasForImpl_eq_any, semEmpty_get e he k]
  rfl

theorem precision_merge_left (e r : SpecOptions)
    (hp : prRead e.data = none ∨ prRead e.data = some 10) :
    (e.merge r).precision = r.precision := by
  unfold SpecOptions.precision
  rw [prRead_merge]
  cases h : prRead r.data with
  | some v => simp [jsOr, h]
  | none => rcases hp with hp | hp <;> simp [jsOr, hp]

theorem precision_merge_right (r e : SpecOptions) (hp : prRead e.data = none) :
    (r.merge e).precision = r.precision := by
  unfold SpecOptions.precision
  rw [prRead_merge, hp]
  rfl

theorem getMode_merge_semEmpty_left (e r : SpecOptions)
    (he : semanticallyEmpty e = true) (s : String) :
    (e.merge r).getMode s = r.getMode s := by
  apply getMode_congr
  · rw [hasForImpl_merge, semEmpty_hasForImpl e he]
    simp
  · rw [hasForImpl_merge, semEmpty_hasForImpl e he]
    simp

theorem getMode_merge_semEmpty_right (r e : SpecOptions)
    (he : semanticallyEmpty e = true) (s : String) :
    (r.merge e).getMode s = r.getMode s := by
  apply getMode_congr
  · rw [hasForImpl_merge, semEmpty_hasForImpl e he]
    simp
  · rw [hasForImpl_merge, semEmpty_hasForImpl e he]
    simp

theorem isWarningTodo_merge_semEmpty_left (e r : SpecOptions)
    (he : semanticallyEmpty e = true) (s : String) :
    (e.merge r).isWarningTodo s = r.isWarningTodo s := by
  unfold SpecOptions.isWarningTodo
  rw [hasForImpl_merge, semEmpty_hasForImpl e he]
  simp

theorem isWarningTodo_merge_semEmpty_right (r e : SpecOptions)
    (he : semanticallyEmpty e = true) (s : String) :
    (r.merge e).isWarningTodo s = r.isWarningTodo s := by
  unfold SpecOptions.isWarningTodo
  rw [hasForImpl_merge, semEmpty_hasForImpl e he]
  simp

theorem semEmpty_emptyRecord : semanticallyEmpty emptyRecord = true := by decide

/-! Helper lemmas about the structural codec. -/

theorem decode_encode (d : OptionsData) (h : d.extra = []) :
    decodeDoc (encodeDoc d) =
      ⟨d.ignore_for, d.todo, d.warning_todo, (prRead d).map some, []⟩ := by
  obtain ⟨i, t, w, p, x⟩ := d
  simp only at h
  subst h
  rcases i with _ | i <;> rcases t with _ | t <;> rcases w with _ | w <;>
    rcases p with _ | _ | v <;> rfl

/-! Helper lemmas about the branches of `removeImpl`. -/

theorem removeImpl_cases (o : SpecOptions) (s : String) (k : OptionKey) :
    o.removeImpl s k = o ∨ ∃ v, o.removeImpl s k = ⟨o.data.set k v⟩ := by
  unfold SpecOptions.removeImpl
  split
  · exact Or.inl rfl
  · split
    · exact Or.inl rfl
    · split
      · exact Or.inr ⟨none, rfl⟩
      · exact Or.inr ⟨_, rfl⟩

theorem prRead_mk (i t w : Option (List String)) (p : Option Int)
    (x : List (String × YVal)) : prRead ⟨i, t, w, some p, x⟩ = p := by
  cases p <;> rfl

theorem jsOr_assoc (a b c : Option Int) : jsOr a (jsOr b c) = jsOr (jsOr a b) c := by
  cases a <;> rfl

/-- Claim C1, counterexample: merging a semantically empty record does NOT
always leave the other record fully equivalent.  A semantically empty record
with `:precision: 10` merged on the right overrides a smaller precision (here
5 becomes 10), changing even the `precision()` query; and merging the all-absent
empty record with itself yields a record on which `isEmpty` is `false` (the
merge materializes the list keys and a `:precision` key holding `undefined`,
and `undefined === 10` fails). -/
theorem semEmpty_merge_not_fully_inert_cex :
    semanticallyEmpty ⟨⟨none, none, none, some (some 10), []⟩⟩ = true ∧
    SpecOptions.precision
        (SpecOptions.merge ⟨⟨none, none, none, some (some 5), []⟩⟩
          ⟨⟨none, none, none, some (some 10), []⟩⟩) ≠
      SpecOptions.precision ⟨⟨none, none, none, some (some 5), []⟩⟩ ∧
    semanticallyEmpty emptyRecord = true ∧
    SpecOptions.isEmpty (SpecOptions.merge emptyRecord emptyRecord) ≠
      SpecOptions.isEmpty emptyRecord := by
  decide

/-- Claim C1 (amended): for a semantically empty record `e` (all three list
fields empty or absent, precision absent or equal to 10), `e.merge(r)` is
equivalent to `r` under the three query operations for every `r`; `r.merge(e)`
is equivalent to `r` under the queries whenever `e` reads no precision.  Full
equivalence (under `isEmpty` or re-encoding) does not hold, and a present
precision 10 in `e` does override `r`'s precision in `r.merge(e)`. -/
theorem semEmpty_merge_query_inert (e r : SpecOptions) (s : String)
    (he : semanticallyEmpty e = true) :
    ((e.merge r).getMode s = r.getMode s ∧
     (e.merge r).isWarningTodo s = r.isWarningTodo s ∧
     (e.merge r).precision = r.precision) ∧
    (prRead e.data = none →
      ((r.merge e).getMode s = r.getMode s ∧
       (r.merge e).isWarningTodo s = r.isWarningTodo s ∧
       (r.merge e).precision = r.precision)) := by
  refine ⟨⟨getMode_merge_semEmpty_left e r he s, isWarningTodo_merge_semEmpty_left e r he s,
    precision_merge_left e r (semEmpty_prRead e he)⟩, fun hp =>
    ⟨getMode_merge_semEmpty_right r e he s, isWarningTodo_merge_semEmpty_right r e he s,
     precision_merge_right r e hp⟩⟩

/-- Witness for the amended claim C1 at concrete records. -/
theorem semEmpty_merge_query_inert_w :
    ((SpecOptions.merge ⟨⟨some [], none, none, some (some 10), []⟩⟩
        ⟨⟨some ["dart-sass"], none, none, some (some 5), []⟩⟩).getMode "dart-sass" =
      SpecOptions.getMode ⟨⟨some ["dart-sass"], none, none, some (some 5), []⟩⟩ "dart-sass") ∧
    ((SpecOptions.merge ⟨⟨some ["dart-sass"], none, none, some (some 5), []⟩⟩
        emptyRecord).precision =
      SpecOptions.precision ⟨⟨some ["dart-sass"], none, none, some (some 5), []⟩⟩) :=
  ⟨(semEmpty_merge_query_inert ⟨⟨some [], none, none, some (some 10), []⟩⟩
      ⟨⟨some ["dart-sass"], none, none, some (some 5), []⟩⟩ "dart-sass" (by decide)).1.1,
   ((semEmpty_merge_query_inert emptyRecord
      ⟨⟨some ["dart-sass"], none, none, some (some 5), []⟩⟩ "dart-sass"
      (by decide)).2 rfl).2.2⟩

/-- Claim C2: for every record `r` and implementation name `s`, merging with
`emptyRecord` (the record decoded from an empty document) in either order is
observationally equivalent to `r` under `getMode`, `isWarningTodo` and
`precision`. -/
theorem merge_emptyRecord_queries (r : SpecOptions) (s : String) :
    (r.merge emptyRecord).getMode s = r.getMode s ∧
    (r.merge emptyRecord).isWarningTodo s = r.isWarningTodo s ∧
    (r.merge emptyRecord).precision = r.precision ∧
    (emptyRecord.merge r).getMode s = r.getMode s ∧
    (emptyRecord.merge r).isWarningTodo s = r.isWarningTodo s ∧
    (emptyRecord.merge r).precision = r.precision := by
  have he := semEmpty_emptyRecord
  exact ⟨getMode_merge_semEmpty_right r emptyRecord he s,
    isWarningTodo_merge_semEmpty_right r emptyRecord he s,
    precision_merge_right r emptyRecord rfl,
    getMode_merge_semEmpty_left emptyRecord r he s,
    isWarningTodo_merge_semEmpty_left emptyRecord r he s,
    precision_merge_left emptyRecord r (Or.inl rfl)⟩

/-- Claim C3: each list field of `a.merge(b)` is exactly the concatenation of
`a`'s list (empty if absent) followed by `b`'s list (empty if absent); no
deduplication happens (occurrence counts add), and the merged precision read is
`b`'s precision if `b` specifies one, else `a`'s, else absent (`jsOr` is the
`??` operator). -/
theorem merge_concat_precision (a b : SpecOptions) (k : OptionKey) (x : String) :
    (a.merge b).data.get k = some ((a.data.get k).getD [] ++ (b.data.get k).getD []) ∧
    (((a.merge b).data.get k).getD []).count x =
      ((a.data.get k).getD []).count x + ((b.data.get k).getD []).count x ∧
    prRead (a.merge b).data = jsOr (prRead b.data) (prRead a.data) := by
  refine ⟨get_merge a b k, ?_, prRead_merge a b⟩
  rw [get_merge a b k]
  simp [List.count_append]

/-- Claim C4: `getMode` returns `'ignore'` if the ignore list matches, else
`'todo'` if the todo list matches, else `undefined`; in particular when an
implementation matches both the ignore and the todo list, ignore wins. -/
theorem getMode_ignore_priority (o : SpecOptions) (s : String) :
    o.getMode s = (if o.hasForImpl s OptionKey.ignore_for then some RunMode.ignore
      else if o.hasForImpl s OptionKey.todo then some RunMode.todo else none) ∧
    (o.hasForImpl s OptionKey.ignore_for = true → o.hasForImpl s OptionKey.todo = true →
      o.getMode s = some RunMode.ignore) := by
  refine ⟨rfl, fun h1 _ => ?_⟩
  unfold SpecOptions.getMode
  simp [h1]

/-- Witness for claim C4: `"dart-sass"` is in both lists, and ignore wins. -/
theorem getMode_ignore_priority_w :
    SpecOptions.hasForImpl ⟨⟨some ["dart-sass"], some ["dart-sass"], none, none, []⟩⟩
      "dart-sass" OptionKey.ignore_for = true ∧
    SpecOptions.hasForImpl ⟨⟨some ["dart-sass"], some ["dart-sass"], none, none, []⟩⟩
      "dart-sass" OptionKey.todo = true ∧
    SpecOptions.getMode ⟨⟨some ["dart-sass"], some ["dart-sass"], none, none, []⟩⟩
      "dart-sass" = some RunMode.ignore :=
  ⟨by decide, by decide,
   (getMode_ignore_priority ⟨⟨some ["dart-sass"], some ["dart-sass"], none, none, []⟩⟩
     "dart-sass").2 (by decide) (by decide)⟩

/-- Claim C5: `hasForImpl` is false when the selected field is absent, and
otherwise true iff at least one entry of that field contains the implementation
name as a substring; in particular entry `"dart-sass: unsupported"` matches
implementation name `"dart-sass"`. -/
theorem hasForImpl_substring (o : SpecOptions) (s : String) (k : OptionKey) :
    (o.data.get k = none → o.hasForImpl s k = false) ∧
    (o.hasForImpl s k = true ↔
      ∃ l, o.data.get k = some l ∧
        ∃ item ∈ l, ∃ pre post, item.toList = pre ++ s.toList ++ post) ∧
    SpecOptions.hasForImpl ⟨⟨some ["dart-sass: unsupported"], none, none, none, []⟩⟩
      "dart-sass" OptionKey.ignore_for = true := by
  refine ⟨fun h => ?_, ?_, by decide⟩
  · unfold SpecOptions.hasForImpl
    rw [h]
  · cases h : o.data.get k with
    | none =>
      unfold SpecOptions.hasForImpl
      rw [h]
      simp
    | some l =>
      unfold SpecOptions.hasForImpl
      rw [h]
      simp [List.any_eq_true, strIncludes_iff]

/-- Witness for claim C5 at a record with the field absent. -/
theorem hasForImpl_substring_w :
    SpecOptions.hasForImpl emptyRecord "dart-sass" OptionKey.todo = false :=
  (hasForImpl_substring emptyRecord "dart-sass" OptionKey.todo).1 rfl

/-- Claim C6: `removeImpl` returns the record unchanged when the field is
absent or no entry matches; when the field holds exactly one entry and it
matches, the field is absent from the result; otherwise exactly the first
matching entry is excised, preserving the order of the remaining entries and
leaving later matching entries in place. -/
theorem removeImpl_first_match (o : SpecOptions) (s : String) (k : OptionKey) :
    (o.data.get k = none → o.removeImpl s k = o) ∧
    (∀ l, o.data.get k = some l → (∀ x ∈ l, strIncludes x s = false) →
      o.removeImpl s k = o) ∧
    (∀ x, o.data.get k = some [x] → strIncludes x s = true →
      (o.removeImpl s k).data.get k = none) ∧
    (∀ pre x post, o.data.get k = some (pre ++ x :: post) →
      (∀ y ∈ pre, strIncludes y s = false) → strIncludes x s = true →
      (pre ++ x :: post).length ≥ 2 →
      (o.removeImpl s k).data.get k = some (pre ++ post)) := by
  refine ⟨fun h => ?_, fun l hget hall => ?_, fun x hget hx => ?_,
    fun pre x post hget hpre hx hlen => ?_⟩
  · unfold SpecOptions.removeImpl
    rw [h]
  · simp only [SpecOptions.removeImpl, hget, findMatchIdx_none_of_all s l hall]
  · have hfind : findMatchIdx s [x] = some 0 := by simp [findMatchIdx, hx]
    simp [SpecOptions.removeImpl, hget, hfind, get_set_same]
  · have hfind := findMatchIdx_first s pre x post hpre hx
    have hne : ¬ ((pre ++ x :: post).length == 1) = true := by
      simp only [beq_iff_eq]
      omega
    have htake : (pre ++ x :: post).take pre.length = pre := List.take_left pre (x :: post)
    have hdrop : (pre ++ x :: post).drop (pre.length + 1) = post := by
      have h2 : pre ++ x :: post = (pre ++ [x]) ++ post := by simp
      have h3 : pre.length + 1 = (pre ++ [x]).length := by simp
      rw [h2, h3, List.drop_left]
    simp only [SpecOptions.removeImpl, hget, hfind]
    rw [if_neg hne]
    simp [get_set_same, htake, hdrop]

/-- Witness for claim C6, covering all four branches at concrete records. -/
theorem removeImpl_first_match_w :
    SpecOptions.removeImpl emptyRecord "dart-sass" OptionKey.ignore_for = emptyRecord ∧
    SpecOptions.removeImpl ⟨⟨some ["libsass"], none, none, none, []⟩⟩ "dart-sass"
      OptionKey.ignore_for = ⟨⟨some ["libsass"], none, none, none, []⟩⟩ ∧
    (SpecOptions.removeImpl ⟨⟨some ["dart-sass"], none, none, none, []⟩⟩ "dart-sass"
      OptionKey.ignore_for).data.get OptionKey.ignore_for = none ∧
    (SpecOptions.removeImpl ⟨⟨some ["libsass", "dart-sass", "dart-sass"], none, none, none, []⟩⟩
      "dart-sass" OptionKey.ignore_for).data.get OptionKey.ignore_for =
      some (["libsass"] ++ ["dart-sass"]) :=
  ⟨(removeImpl_first_match emptyRecord "dart-sass" OptionKey.ignore_for).1 rfl,
   (removeImpl_first_match ⟨⟨some ["libsass"], none, none, none, []⟩⟩ "dart-sass"
     OptionKey.ignore_for).2.1 ["libsass"] rfl (by decide),
   (removeImpl_first_match ⟨⟨some ["dart-sass"], none, none, none, []⟩⟩ "dart-sass"
     OptionKey.ignore_for).2.2.1 "dart-sass" rfl (by decide),
   (removeImpl_first_match ⟨⟨some ["libsass", "dart-sass", "dart-sass"], none, none, none, []⟩⟩
     "dart-sass" OptionKey.ignore_for).2.2.2 ["libsass"] "dart-sass" ["dart-sass"]
     rfl (by decide) (by decide) (by decide)⟩

/-- Claim C7 (codec modelled from the spec at the structured level): for a
record containing only the four recognized fields, decoding the encoded form
yields a record observationally equal to the original under `getMode`,
`isWarningTodo` and `precision` for every implementation name. -/
theorem fromText_toText_roundtrip (o : SpecOptions) (s : String)
    (h : o.data.extra = []) :
    (SpecOptions.fromTextDoc o.toTextDoc).getMode s = o.getMode s ∧
    (SpecOptions.fromTextDoc o.toTextDoc).isWarningTodo s = o.isWarningTodo s ∧
    (SpecOptions.fromTextDoc o.toTextDoc).precision = o.precision := by
  have hd : SpecOptions.fromTextDoc o.toTextDoc =
      ⟨⟨o.data.ignore_for, o.data.todo, o.data.warning_todo, (prRead o.data).map some, []⟩⟩ := by
    unfold SpecOptions.fromTextDoc SpecOptions.toTextDoc
    rw [decode_encode o.data h]
  rw [hd]
  have hget : ∀ k : OptionKey,
      OptionsData.get ⟨o.data.ignore_for, o.data.todo, o.data.warning_todo,
        (prRead o.data).map some, []⟩ k = o.data.get k := by
    intro k
    cases k <;> rfl
  have hpr : prRead ⟨o.data.ignore_for, o.data.todo, o.data.warning_todo,
      (prRead o.data).map some, []⟩ = prRead o.data := by
    cases hp : prRead o.data <;> simp [prRead, hp]
  refine ⟨getMode_congr _ _ s ?_ ?_, ?_, ?_⟩
  · rw [hasForImpl_eq_any, hasForImpl_eq_any, hget]
  · rw [hasForImpl_eq_any, hasForImpl_eq_any, hget]
  · unfold SpecOptions.isWarningTodo
    rw [hasForImpl_eq_any, hasForImpl_eq_any, hget]
  · unfold SpecOptions.precision
    rw [hpr]

/-- Witness for claim C7 at a concrete record holding all four fields. -/
theorem fromText_toText_roundtrip_w :
    (SpecOptions.fromTextDoc (SpecOptions.toTextDoc
        ⟨⟨some ["dart-sass"], some ["libsass"], some ["sass"], some (some 7), []⟩⟩)).getMode
      "dart-sass" =
      SpecOptions.getMode ⟨⟨some ["dart-sass"], some ["libsass"], some ["sass"],
        some (some 7), []⟩⟩ "dart-sass" ∧
    (SpecOptions.fromTextDoc (SpecOptions.toTextDoc
        ⟨⟨some ["dart-sass"], some ["libsass"], some ["sass"], some (some 7), []⟩⟩)).isWarningTodo
      "dart-sass" =
      SpecOptions.isWarningTodo ⟨⟨some ["dart-sass"], some ["libsass"], some ["sass"],
        some (some 7), []⟩⟩ "dart-sass" ∧
    (SpecOptions.fromTextDoc (SpecOptions.toTextDoc
        ⟨⟨some ["dart-sass"], some ["libsass"], some ["sass"], some (some 7), []⟩⟩)).precision =
      SpecOptions.precision ⟨⟨some ["dart-sass"], some ["libsass"], some ["sass"],
        some (some 7), []⟩⟩ :=
  fromText_toText_roundtrip
    ⟨⟨some ["dart-sass"], some ["libsass"], some ["sass"], some (some 7), []⟩⟩ "dart-sass" rfl

/-- Claim C8: merge is associative (even as structural equality on records),
so folding a root-to-leaf chain of records left-to-right with the two-argument
merge gives the same result regardless of grouping. -/
theorem merge_assoc_fold :
    (∀ a b c : SpecOptions, (a.merge b).merge c = a.merge (b.merge c)) ∧
    (∀ (l : List SpecOptions) (a b : SpecOptions),
      l.foldl SpecOptions.merge (a.merge b) = a.merge (l.foldl SpecOptions.merge b)) := by
  have hassoc : ∀ a b c : SpecOptions, (a.merge b).merge c = a.merge (b.merge c) := by
    intro a b c
    simp only [SpecOptions.merge, Option.getD_some, prRead_mk, SpecOptions.mk.injEq,
      OptionsData.mk.injEq, Option.some.injEq, List.append_assoc, jsOr_assoc]
  refine ⟨hassoc, ?_⟩
  intro l
  induction l with
  | nil =>
    intro a b
    rfl
  | cons x xs ih =>
    intro a b
    show xs.foldl SpecOptions.merge ((a.merge b).merge x) =
      a.merge (xs.foldl SpecOptions.merge (b.merge x))
    rw [hassoc]
    exact ih a (b.merge x)

/-- Claim C9: `hasForImpl` with the empty string is true iff the selected field
is present and non-empty (the empty string is a substring of every entry), and
`getMode("")` is `'ignore'` on any record whose ignore list has at least one
entry. -/
theorem hasForImpl_empty_impl (o : SpecOptions) (k : OptionKey) :
    (o.hasForImpl "" k = true ↔ ∃ x xs, o.data.get k = some (x :: xs)) ∧
    (∀ x xs, o.data.get OptionKey.ignore_for = some (x :: xs) →
      o.getMode "" = some RunMode.ignore) := by
  constructor
  · rw [hasForImpl_eq_any]
    cases h : o.data.get k with
    | none => simp
    | some l =>
      cases l with
      | nil => simp
      | cons a as => simp [strIncludes_empty_impl]
  · intro x xs hig
    have hhas : o.hasForImpl "" OptionKey.ignore_for = true := by
      rw [hasForImpl_eq_any, hig]
      simp [strIncludes_empty_impl]
    unfold SpecOptions.getMode
    simp [hhas]

/-- Witness for claim C9 at a record with a qualified ignore entry. -/
theorem hasForImpl_empty_impl_w :
    SpecOptions.getMode ⟨⟨some ["dart-sass: unsupported"], none, none, none, []⟩⟩ "" =
      some RunMode.ignore :=
  (hasForImpl_empty_impl ⟨⟨some ["dart-sass: unsupported"], none, none, none, []⟩⟩
    OptionKey.ignore_for).2 "dart-sass: unsupported" [] rfl

/-- Claim C10: `addImpl` and `removeImpl` change at most the selected field:
every other list field, the precision entry and the unrecognized extra fields
of the result are identical to those of the input record. -/
theorem addImpl_removeImpl_frame (o : SpecOptions) (s : String) (k k2 : OptionKey)
    (h : k2 ≠ k) :
    (o.addImpl s k).data.get k2 = o.data.get k2 ∧
    (o.addImpl s k).data.precision = o.data.precision ∧
    (o.addImpl s k).data.extra = o.data.extra ∧
    (o.removeImpl s k).data.get k2 = o.data.get k2 ∧
    (o.removeImpl s k).data.precision = o.data.precision ∧
    (o.removeImpl s k).data.extra = o.data.extra := by
  have hrem := removeImpl_cases o s k
  refine ⟨get_set_ne o.data k k2 _ h, set_precision o.data k _, set_extra o.data k _,
    ?_, ?_, ?_⟩
  · rcases hrem with hc | ⟨v, hc⟩ <;> rw [hc]
    exact get_set_ne o.data k k2 v h
  · rcases hrem with hc | ⟨v, hc⟩ <;> rw [hc]
    exact set_precision o.data k v
  · rcases hrem with hc | ⟨v, hc⟩ <;> rw [hc]
    exact set_extra o.data k v

/-- Witness for claim C10 at concrete records and distinct keys. -/
theorem addImpl_removeImpl_frame_w :
    (SpecOptions.addImpl ⟨⟨some ["x"], none, none, some (some 3), []⟩⟩ "y"
      OptionKey.todo).data.get OptionKey.ignore_for =
      OptionsData.get ⟨some ["x"], none, none, some (some 3), []⟩ OptionKey.ignore_for ∧
    (SpecOptions.addImpl ⟨⟨some ["x"], none, none, some (some 3), []⟩⟩ "y"
      OptionKey.todo).data.precision =
      OptionsData.precision ⟨some ["x"], none, none, some (some 3), []⟩ ∧
    (SpecOptions.addImpl ⟨⟨some ["x"], none, none, some (some 3), []⟩⟩ "y"
      OptionKey.todo).data.extra =
      OptionsData.extra ⟨some ["x"], none, none, some (some 3), []⟩ ∧
    (SpecOptions.removeImpl ⟨⟨some ["x"], none, none, some (some 3), []⟩⟩ "y"
      OptionKey.todo).data.get OptionKey.ignore_for =
      OptionsData.get ⟨some ["x"], none, none, some (some 3), []⟩ OptionKey.ignore_for ∧
    (SpecOptions.removeImpl ⟨⟨some ["x"], none, none, some (some 3), []⟩⟩ "y"
      OptionKey.todo).data.precision =
      OptionsData.precision ⟨some ["x"], none, none, some (some 3), []⟩ ∧
    (SpecOptions.removeImpl ⟨⟨some ["x"], none, none, some (some 3), []⟩⟩ "y"
      OptionKey.todo).data.extra =
      OptionsData.extra ⟨some ["x"], none, none, some (some 3), []⟩ :=
  addImpl_removeImpl_frame ⟨⟨some ["x"], none, none, some (some 3), []⟩⟩ "y"
    OptionKey.todo OptionKey.ignore_for (by decide)
